import Mathlib

/-!
Verification development for the `ponder` schema-driven entity storage layer
(`src/packages/core/src/database/entity/postgresEntityStore.ts`, plus the
GraphQL-side filter translation in `src/unnamed/part_001`).

The TypeScript code is shallowly embedded: JavaScript objects (rows, `where`
mappings) become association lists `List (String × Value)` in insertion order,
thrown `Error(message)` values become `Except String`, and the statements the
store sends to the backend are either kept as the literal statement text the
code builds (for the read path, where the claims are about the text itself) or
modelled by the Postgres semantics of the emitted statement on an in-memory
table (for the write path, where the claims are about the stored rows).
-/

namespace Ponder

/-- A scalar JavaScript value. The schema admits only flat lists ("list of
scalar" flag, spec §3), so list values carry scalars. -/
inductive Scalar where
  | sNull
  | sBool (b : Bool)
  | sInt (n : Int)
  | sStr (s : String)
  deriving Repr, DecidableEq

/-- JavaScript values as they appear in entity instances, filter values and
backend rows. `parsedJson s` stands for the opaque value produced by the
platform builtin `JSON.parse` on the text `s`; no property proved below
depends on its structure. -/
inductive Value where
  | vNull
  | vBool (b : Bool)
  | vInt (n : Int)
  | vStr (s : String)
  | vList (vs : List Scalar)
  | parsedJson (s : String)
  deriving Repr, DecidableEq

/-- A JavaScript object, in insertion order: a backend row, an entity
instance, or a `where` mapping. -/
abbrev Row := List (String × Value)

/-- A table of rows, the in-memory model of one backend table. -/
abbrev Table := List Row

/-- Field kinds from `@/schema/types` (`FieldKind`); the store only ever
branches on `DERIVED` and `LIST`. -/
inductive FieldKind where
  | ID
  | SCALAR
  | ENUM
  | LIST
  | RELATIONSHIP
  | DERIVED
  deriving Repr, DecidableEq

/-- A schema field. The TypeScript `Field` is a union of scalar and derived
shapes; here one structure carries every component the store reads, with
unused components defaulted. `baseGqlType` is the result of the code's
`field.baseGqlType.toString()`. -/
structure Field where
  name : String
  kind : FieldKind
  baseGqlType : String := ""
  derivedFromEntityName : String := ""
  derivedFromFieldName : String := ""
  migrateUpStatement : String := ""
  deriving Repr, DecidableEq

/-- A schema entity: `id` is the storage table name, `name` the display
name. -/
structure Entity where
  id : String
  name : String
  fields : List Field
  deriving Repr, DecidableEq

/-- Lookup of a field by name, the embedding of the precomputed
`entity.fieldByName[fieldName]` record. -/
def Entity.fieldByName (e : Entity) (n : String) : Option Field :=
  e.fields.find? (fun f => decide (f.name = n))

/-- A schema: an ordered list of entities. -/
structure Schema where
  entities : List Entity
  deriving Repr, DecidableEq

/-! ## JavaScript object primitives -/

/-- Reading `obj[k]`: the first entry with key `k`, if any. -/
def objGet (r : List (String × α)) (k : String) : Option α :=
  (r.find? (fun p => decide (p.1 = k))).map Prod.snd

/-- The assignment `obj[k] = v`: overwrite an existing key in place, else
append the new entry, preserving JavaScript object insertion order. -/
def objSet (r : List (String × α)) (k : String) (v : α) : List (String × α) :=
  if r.any (fun p => decide (p.1 = k)) then
    r.map (fun p => if p.1 = k then (k, v) else p)
  else
    r ++ [(k, v)]

/-- Sequential assignments `obj[k] = v` for each pair in order. -/
def applyPairs (r : List (String × α)) (ps : List (String × α)) : List (String × α) :=
  ps.foldl (fun acc p => objSet acc p.1 p.2) r

/-! ## Value codec -/

/-- Rendering of one scalar as bare text, used by the modelled serializers
below. -/
def renderScalarS : Scalar → String
  | .sNull => "null"
  | .sBool b => cond b "true" "false"
  | .sInt n => toString n
  | .sStr s => s

/-- Rendering of one non-list value as bare text. -/
def renderScalar : Value → String
  | .vNull => "null"
  | .vBool b => cond b "true" "false"
  | .vInt n => toString n
  | .vStr s => s
  | .parsedJson s => s
  | .vList vs => String.intercalate "," (vs.map renderScalarS)

/-- Modelled from the spec: the encode half of the Value Codec (§4.2) used by
`getColumnValuePairs` in `utils.ts`, which is not under src/. Booleans encode
to storage 1/0, list values serialize to text, all other scalars pass
through. -/
def encodeValue : Value → Value
  | .vBool b => .vInt (if b then 1 else 0)
  | .vList vs => .vStr ("[" ++ String.intercalate "," (vs.map renderScalarS) ++ "]")
  | v => v

/-- Modelled from the spec: `getColumnValuePairs` in `utils.ts` is not under
src/. Per §4.2/§6 it turns an instance (called `instance` in the source; a
Lean keyword, so `inst` below) into its ordered column/value pairs, one per
entry, with values encoded for storage. -/
def getColumnValuePairs (inst : Row) : List (String × Value) :=
  inst.map (fun p => (p.1, encodeValue p.2))

/-- The JavaScript strict comparison `value === 1` on a row value: true
exactly for the number 1. -/
def jsEq1 : Value → Bool
  | .vInt n => decide (n = 1)
  | _ => false

/-- The platform builtin `JSON.parse(value as string)`; the result is kept
opaque (see `Value.parsedJson`). -/
def jsonParseJS : Value → Value
  | .vStr s => .parsedJson s
  | v => .parsedJson (renderScalar v)

/-! ## deserialize (postgresEntityStore.ts lines 265-297) -/

/-- The per-entry transform inside `deserialize`'s `forEach`: properties
naming no field pass through; `Boolean`-typed fields become `value === 1`;
`LIST`-kind fields are `JSON.parse`d; every other matched field passes
through. -/
def deserializeEntry (entity : Entity) (p : String × Value) : String × Value :=
  match entity.fieldByName p.1 with
  | none => p
  | some fl =>
    if fl.baseGqlType = "Boolean" then (p.1, .vBool (jsEq1 p.2))
    else if fl.kind = FieldKind.LIST then (p.1, jsonParseJS p.2)
    else p

/-- The thrown message of the schema guard (lines 23-24 and 267). -/
def uninitializedMsg : String :=
  "EntityStore has not been initialized with a schema yet"

/-- Embeds `deserialize` (lines 265-297): guard on the schema, find the
entity by id, then rebuild the instance entry by entry. The code copies the
input (`{ ...instance }`) and overwrites each key with its transform, which
on an object with unique keys is exactly an entrywise map. -/
def deserialize (schema : Option Schema) (entityId : String) (inst : Row) :
    Except String Row :=
  match schema with
  | none => .error uninitializedMsg
  | some s =>
    match s.entities.find? (fun e => decide (e.id = entityId)) with
    | none => .error ("Entity not found in schema for ID: " ++ entityId)
    | some entity => .ok (inst.map (deserializeEntry entity))

/-! ## errorWrapper (lines 20-32) -/

/-- Embeds `errorWrapper`: every wrapped operation first checks that a schema
is set and otherwise throws. -/
def errorWrapper (schema : Option Schema) (fn : Schema → Except String α) :
    Except String α :=
  match schema with
  | none => .error uninitializedMsg
  | some s => fn s

/-! ## Filter key splitting (line 181 and part_001 line 160) -/

/-- Splitting a character list at the first underscore, the semantics of the
regex split `key.split(/_(.*)/s)`: `none` when no underscore occurs, else the
characters before the first underscore and everything after it. -/
def splitCharsFirst : List Char → Option (List Char × List Char)
  | [] => none
  | c :: cs =>
    if c = '_' then some ([], cs)
    else (splitCharsFirst cs).map (fun p => (c :: p.1, p.2))

/-- Embeds `const [fieldName, rawFilterType] = field.split(/_(.*)/s)`: the
field name and, when an underscore occurs, the operator suffix after the
first underscore. -/
def splitFirstUnderscore (s : String) : String × Option String :=
  match splitCharsFirst s.data with
  | none => (s, none)
  | some p => (String.mk p.1, some (String.mk p.2))

/-! ## SQL operator table and where compilation (lines 179-197) -/

/-- The backend operator data looked up per filter-type suffix. Only
membership in the table and the operator text are used by any property
below. -/
structure SqlSymbols where
  operator : String
  isList : Bool := false
  deriving Repr, DecidableEq

/-- Modelled from the spec: `sqlSymbolsForFilterType` lives in `utils.ts`,
which is not under src/. The registered suffix set follows the operator table
of §4.3 and coincides with `graphqlFilterToStoreCondition` in
src/unnamed/part_001; the Postgres operator symbols are the evident ones. -/
def sqlSymbolsForFilterType : String → Option SqlSymbols
  | "" => some { operator := "=" }
  | "not" => some { operator := "!=" }
  | "in" => some { operator := "IN", isList := true }
  | "not_in" => some { operator := "NOT IN", isList := true }
  | "has" => some { operator := "LIKE" }
  | "not_has" => some { operator := "NOT LIKE" }
  | "gt" => some { operator := ">" }
  | "lt" => some { operator := "<" }
  | "gte" => some { operator := ">=" }
  | "lte" => some { operator := "<=" }
  | "contains" => some { operator := "LIKE" }
  | "not_contains" => some { operator := "NOT LIKE" }
  | "starts_with" => some { operator := "LIKE" }
  | "ends_with" => some { operator := "LIKE" }
  | "not_starts_with" => some { operator := "NOT LIKE" }
  | "not_ends_with" => some { operator := "NOT LIKE" }
  | _ => none

/-- The rendered parts of a filter value: an IN-list is spread, any other
value stands alone. -/
def valueParts : Value → List String
  | .vList vs => vs.map renderScalarS
  | v => [renderScalar v]

/-- Modelled from the spec: `getWhereValue` lives in `utils.ts`, which is not
under src/. Per §9 the source builds the clause by string interpolation
("string-built query fragments"): the caller-supplied value is rendered
directly into the text after the operator symbol. SQL literal quoting is
elided; no property proved below depends on it. -/
def getWhereValue (value : Value) (symbols : SqlSymbols) : String :=
  if symbols.isList then
    symbols.operator ++ " (" ++ String.intercalate ", " (valueParts value) ++ ")"
  else
    symbols.operator ++ " " ++ renderScalar value

/-- Embeds the per-entry body of the `where` compilation (lines 180-194):
split the key at the first underscore, default the missing suffix to `""`,
look up the SQL symbols (throwing when none are registered), and build the
fragment `"<fieldName>" <whereValue>`. -/
def whereFragment (entry : String × Value) : Except String String :=
  let (fieldName, rawFilterType) := splitFirstUnderscore entry.1
  let filterType := rawFilterType.getD ""
  match sqlSymbolsForFilterType filterType with
  | none => .error ("SQL operators not found for filter type: " ++ filterType)
  | some sqlSymbols =>
    .ok ("\"" ++ fieldName ++ "\" " ++ getWhereValue entry.2 sqlSymbols)

/-! ## getEntities (lines 169-223) -/

/-- The filter argument of `getEntities` (`EntityFilter` from
entityStore.ts); `whereArg` embeds the `where` property, which is a Lean
keyword. -/
structure EntityFilter where
  whereArg : Option Row := none
  first : Option Int := none
  skip : Option Int := none
  orderBy : Option String := none
  orderDirection : Option String := none
  deriving Repr, DecidableEq

/-- Embeds the statement construction of `getEntities` (lines 177-218),
returning the statement text together with the positional bound-parameter
list handed to `pool.query`; line 219 calls `pool.query(statement)` with no
parameter array, so that list is always empty. JavaScript truthiness guards
each fragment: `0` and `""` are falsy, while a present `where` object is
truthy even when empty. -/
def getEntitiesStatement (entityId : String) (filter : Option EntityFilter) :
    Except String (String × List Value) := do
  let whereArg := filter.bind EntityFilter.whereArg
  let first := filter.bind EntityFilter.first
  let skip := filter.bind EntityFilter.skip
  let orderBy := filter.bind EntityFilter.orderBy
  let orderDirection := filter.bind EntityFilter.orderDirection
  let fragments ← match whereArg with
    | some w => do
        let whereFragments ← w.mapM whereFragment
        pure ["WHERE " ++ String.intercalate " AND " whereFragments]
    | none => pure ([] : List String)
  let fragments := fragments ++ (match orderBy with
    | some ob => if ob = "" then [] else ["ORDER BY \"" ++ ob ++ "\""]
    | none => [])
  let fragments := fragments ++ (match orderDirection with
    | some od => if od = "" then [] else [od]
    | none => [])
  let fragments := fragments ++ (match first with
    | some f => if f = 0 then [] else ["LIMIT " ++ toString f]
    | none => [])
  let fragments := fragments ++ (match skip with
    | some sk =>
      if sk = 0 then []
      else
        (match first with
          | some f => if f = 0 then ["LIMIT -1"] else []
          | none => ["LIMIT -1"]) ++ ["OFFSET " ++ toString sk]
    | none => [])
  pure ("SELECT * FROM \"" ++ entityId ++ "\" " ++ String.intercalate " " fragments,
    ([] : List Value))

/-- Embeds `getEntities` (lines 169-223). The backend's evaluation of the
built SELECT text is abstracted as the oracle `pool` from statement text to
row sets — no claim below depends on which rows a SELECT yields, only on the
statement text, the parameter list and the error paths. Each returned row is
deserialized. -/
def getEntities (pool : String → List Row) (schema : Option Schema)
    (entityId : String) (filter : Option EntityFilter) : Except String (List Row) :=
  errorWrapper schema fun s => do
    let q ← getEntitiesStatement entityId filter
    let rows := pool q.1
    rows.mapM (fun r => deserialize (some s) entityId r)

/-! ## teardown and load (lines 34-73) -/

/-- Embeds `teardown` (lines 34-42), as the list of statements issued: a
`DROP TABLE IF EXISTS` per entity of the current schema, and nothing at all
when no schema is set. The schema reference itself is not cleared. -/
def teardown : Option Schema → List String
  | none => []
  | some s => s.entities.map (fun e => "DROP TABLE IF EXISTS \"" ++ e.id ++ "\"")

/-- The `CREATE TABLE` statement built for one entity (lines 61-70): column
fragments come from the `migrateUpStatement` of every non-derived field. -/
def createTableStatement (entity : Entity) : String :=
  "CREATE TABLE \"" ++ entity.id ++ "\" (" ++
    String.intercalate ", "
      ((entity.fields.filter (fun f => ¬ f.kind = FieldKind.DERIVED)).map
        Field.migrateUpStatement) ++ ")"

/-- Embeds `load` (lines 44-73): returns the new schema reference and the
statements issued. A prior schema is torn down first (hot reload); a supplied
schema is adopted; with no schema available the call is a no-op. -/
def load (schema newSchema : Option Schema) : Option Schema × List String :=
  let dropStatements := match schema with
    | some _ => teardown schema
    | none => []
  let schema1 := match newSchema with
    | some ns => some ns
    | none => schema
  match schema1 with
  | none => (schema1, dropStatements)
  | some s => (schema1, dropStatements ++ s.entities.map createTableStatement)

/-! ## getEntity (lines 75-81) -/

/-- Embeds `getEntity`: `SELECT "<e>".* FROM "<e>" WHERE "<e>"."id" = $1`
with the id bound as `$1`, modelled by its Postgres semantics on the table;
`null` when the row count is zero, else the first row deserialized. -/
def getEntity (schema : Option Schema) (table : Table) (entityId id : String) :
    Except String (Option Row) :=
  errorWrapper schema fun s =>
    match table.filter (fun r => decide (objGet r "id" = some (Value.vStr id))) with
    | [] => .ok none
    | r :: _ => (deserialize (some s) entityId r).map some

/-! ## insertEntity (lines 83-105) -/

/-- Embeds `insertEntity`: the code first forces `instance.id = id`
(overwriting any caller-supplied id, line 89), builds the column/value pairs,
and issues `INSERT INTO "<e>" (<cols>) VALUES ($1..$n) RETURNING *` with the
pair values as the positional parameters. The Postgres semantics of that
statement on the table: reject a duplicate primary key, else append the row
formed by the pairs and return it; the returned row is deserialized. -/
def insertEntity (schema : Option Schema) (table : Table) (entityId id : String)
    (inst : Row) : Except String (Row × Table) :=
  errorWrapper schema fun s =>
    let inst := objSet inst "id" (Value.vStr id)
    let pairs := getColumnValuePairs inst
    if table.any (fun r => decide (objGet r "id" = some (Value.vStr id))) then
      .error "duplicate key value violates unique constraint"
    else
      (deserialize (some s) entityId pairs).map (fun ret => (ret, table ++ [pairs]))

/-! ## updateEntity (lines 107-125) -/

/-- The thrown message when the code indexes `rows[0]` of an empty result and
`deserialize` runs `Object.entries(undefined)`. -/
def typeErrorUndefined : String :=
  "TypeError: Cannot convert undefined or null to object"

/-- The non-id column/value pairs of an instance (lines 111 and 144):
`getColumnValuePairs(instance).filter(({ column }) => column !== "id")`. -/
def updatePairsOf (inst : Row) : List (String × Value) :=
  (getColumnValuePairs inst).filter (fun p => ¬ p.1 = "id")

/-- Embeds `updateEntity`: the column/value pairs of the instance minus the
`id` column become `SET` assignments, the id is bound as the final parameter
of `WHERE "id" = $n`, and `RETURNING *` yields the updated rows. The Postgres
semantics on the table: every row whose id matches gets the assignments
applied in order. `rows[0]` of an empty result is `undefined`, and
deserializing it throws a `TypeError` (line 123). -/
def updateEntity (schema : Option Schema) (table : Table) (entityId id : String)
    (inst : Row) : Except String (Row × Table) :=
  errorWrapper schema fun s =>
    let updatePairs := updatePairsOf inst
    let updatedTable := table.map (fun r =>
      if objGet r "id" = some (Value.vStr id) then applyPairs r updatePairs else r)
    let returnedRows := (table.filter
        (fun r => decide (objGet r "id" = some (Value.vStr id)))).map
      (fun r => applyPairs r updatePairs)
    match returnedRows.head? with
    | none => .error typeErrorUndefined
    | some r0 => (deserialize (some s) entityId r0).map (fun ret => (ret, updatedTable))

/-! ## upsertEntity (lines 127-160) -/

/-- Embeds `upsertEntity`: `instance.id = id` is forced (line 133), then
`INSERT ... ON CONFLICT("id") DO UPDATE SET ... RETURNING *` is issued in one
statement. Postgres semantics on the table: with no existing row the insert
pairs become a new row; otherwise the non-id assignments are applied to the
conflicting row. -/
def upsertEntity (schema : Option Schema) (table : Table) (entityId id : String)
    (inst : Row) : Except String (Row × Table) :=
  errorWrapper schema fun s =>
    let inst := objSet inst "id" (Value.vStr id)
    let pairs := getColumnValuePairs inst
    let updatePairs := updatePairsOf inst
    if table.any (fun r => decide (objGet r "id" = some (Value.vStr id))) then
      let updatedTable := table.map (fun r =>
        if objGet r "id" = some (Value.vStr id) then applyPairs r updatePairs else r)
      match (table.filter
          (fun r => decide (objGet r "id" = some (Value.vStr id)))).map
        (fun r => applyPairs r updatePairs) with
      | [] => .error typeErrorUndefined
      | r0 :: _ => (deserialize (some s) entityId r0).map (fun ret => (ret, updatedTable))
    else
      (deserialize (some s) entityId pairs).map (fun ret => (ret, table ++ [pairs]))

/-! ## deleteEntity (lines 162-167) -/

/-- Embeds `deleteEntity`: `DELETE FROM "<entityId>" WHERE "id" = $1` (the
entity id appears only in the statement text, which this table-level model
does not rebuild); the result is whether exactly one row was removed. -/
def deleteEntity (schema : Option Schema) (table : Table)
    (_entityId id : String) : Except String (Bool × Table) :=
  errorWrapper schema fun _ =>
    let remaining := table.filter
      (fun r => ¬ decide (objGet r "id" = some (Value.vStr id)))
    .ok (decide (table.length - remaining.length = 1), remaining)

/-! ## getEntityDerivedField (lines 225-263) -/

/-- Embeds `getEntityDerivedField`: find the entity by id, resolve the
derived field by kind and name, find the target entity by the derived field's
`derivedFromEntityName`, then delegate to `getEntities` on the target with
the single-entry `where` mapping `{ <derivedFromFieldName>: instanceId }`. -/
def getEntityDerivedField (pool : String → List Row) (schema : Option Schema)
    (entityId instanceId derivedFieldName : String) : Except String (List Row) :=
  errorWrapper schema fun s =>
    match s.entities.find? (fun e => decide (e.id = entityId)) with
    | none => .error ("Entity not found in schema for ID: " ++ entityId)
    | some entity =>
      match entity.fields.find? (fun f =>
          decide (f.kind = FieldKind.DERIVED) && decide (f.name = derivedFieldName)) with
      | none =>
        .error ("Derived field not found: " ++ entity.name ++ "." ++ derivedFieldName)
      | some derivedField =>
        match s.entities.find? (fun e =>
            decide (e.name = derivedField.derivedFromEntityName)) with
        | none =>
          .error ("Entity not found in schema for name: " ++
            derivedField.derivedFromEntityName)
        | some derivedFromEntity =>
          let derivedWhere : Row :=
            [(derivedField.derivedFromFieldName, Value.vStr instanceId)]
          getEntities pool schema derivedFromEntity.id
            (some { whereArg := some derivedWhere })

/-! ## buildWhereObject (src/unnamed/part_001, lines 137-177) -/

/-- Embeds `graphqlFilterToStoreCondition` (part_001 lines 137-154): the
GraphQL-side table from operator suffix to store condition name. -/
def graphqlFilterToStoreCondition : String → Option String
  | "" => some "equals"
  | "not" => some "not"
  | "in" => some "in"
  | "not_in" => some "notIn"
  | "has" => some "has"
  | "not_has" => some "notHas"
  | "gt" => some "gt"
  | "lt" => some "lt"
  | "gte" => some "gte"
  | "lte" => some "lte"
  | "contains" => some "contains"
  | "not_contains" => some "notContains"
  | "starts_with" => some "startsWith"
  | "not_starts_with" => some "notStartsWith"
  | "ends_with" => some "endsWith"
  | "not_ends_with" => some "notEndsWith"
  | _ => none

/-- Embeds `buildWhereObject` (part_001 lines 156-177): each `where` key is
split at the first underscore, the missing suffix defaults to `""`, the store
condition is looked up (throwing on an unknown condition, with the message
naming `<fieldName>_<condition>`), and `whereObject[fieldName]` is assigned
the pair of condition and raw value. -/
def buildWhereObject (w : List (String × Value)) :
    Except String (List (String × (String × Value))) :=
  w.foldlM (fun acc entry =>
    let (fieldName, conditionOpt) := splitFirstUnderscore entry.1
    let condition := conditionOpt.getD ""
    match graphqlFilterToStoreCondition condition with
    | none =>
      .error ("Invalid query: Unknown where condition: " ++ fieldName ++ "_" ++ condition)
    | some storeCondition => .ok (objSet acc fieldName (storeCondition, entry.2))) []

/-! ## Concrete schema fixtures used by witnesses and counterexamples -/

/-- A primary-key field as a schema would declare it. -/
def idField : Field := { name := "id", kind := FieldKind.ID, baseGqlType := "ID" }

/-- A boolean scalar field. -/
def boolField : Field := { name := "flag", kind := FieldKind.SCALAR, baseGqlType := "Boolean" }

/-- A string scalar field. -/
def nameField : Field := { name := "name", kind := FieldKind.SCALAR, baseGqlType := "String" }

/-- A small concrete entity with id, boolean and string fields, table "E". -/
def entityE : Entity := { id := "E", name := "E", fields := [idField, boolField, nameField] }

/-- The one-entity schema holding `entityE`. -/
def schemaE : Schema := { entities := [entityE] }

/-- The derived field `Owner.pets`, resolved against `Pet.ownerId`. -/
def ownerPetsField : Field :=
  { name := "pets", kind := FieldKind.DERIVED, baseGqlType := "Pet",
    derivedFromEntityName := "Pet", derivedFromFieldName := "ownerId" }

/-- The `Owner` entity, table "OwnerT", carrying the derived `pets` field. -/
def ownerEntity : Entity := { id := "OwnerT", name := "Owner", fields := [ownerPetsField] }

/-- The `Pet` entity, table "PetT". -/
def petEntity : Entity := { id := "PetT", name := "Pet", fields := [idField] }

/-- The Owner/Pet schema of the spec's derived-field example. -/
def ownerPetSchema : Schema := { entities := [ownerEntity, petEntity] }

/-- A backend oracle returning no rows, for closed instances. -/
def emptyPool : String → List Row := fun _ => []

/-- The filter holding exactly one `where` entry and nothing else, as
`getEntityDerivedField` builds it. -/
def singleWhereFilter (k : String) (v : Value) : EntityFilter :=
  { whereArg := some [(k, v)] }

/-! ## Association-list lemmas -/

theorem find?_setMap (k : String) (v : α) :
    ∀ (r : List (String × α)), r.any (fun p => decide (p.1 = k)) = true →
      (r.map (fun p => if p.1 = k then (k, v) else p)).find?
        (fun p => decide (p.1 = k)) = some (k, v)
  | [], h => by simp at h
  | p :: r, h => by
    by_cases hp : p.1 = k
    · simp [List.find?_cons, hp]
    · have hr : r.any (fun p => decide (p.1 = k)) = true := by
        simpa [List.any_cons, hp] using h
      simpa [List.find?_cons, hp] using find?_setMap k v r hr

theorem find?_appendSingle (k : String) (v : α) :
    ∀ (r : List (String × α)), r.any (fun p => decide (p.1 = k)) = false →
      (r ++ [(k, v)]).find? (fun p => decide (p.1 = k)) = some (k, v)
  | [], _ => by simp [List.find?_cons]
  | p :: r, h => by
    have hp : ¬ p.1 = k := by
      intro e
      simp [List.any_cons, e] at h
    have hr : r.any (fun p => decide (p.1 = k)) = false := by
      simpa [List.any_cons, hp] using h
    simpa [List.find?_cons, hp] using find?_appendSingle k v r hr

theorem find?_objSet_self (r : List (String × α)) (k : String) (v : α) :
    (objSet r k v).find? (fun p => decide (p.1 = k)) = some (k, v) := by
  unfold objSet
  cases h : r.any (fun p => decide (p.1 = k)) with
  | true => simpa [h] using find?_setMap k v r h
  | false => simpa [h] using find?_appendSingle k v r h

theorem objGet_objSet_self (r : List (String × α)) (k : String) (v : α) :
    objGet (objSet r k v) k = some v := by
  unfold objGet
  rw [find?_objSet_self]
  rfl

theorem find?_setMap_ne (k k' : String) (v : α) (h : ¬ k' = k) :
    ∀ (r : List (String × α)),
      (r.map (fun p => if p.1 = k then (k, v) else p)).find?
          (fun p => decide (p.1 = k')) =
        r.find? (fun p => decide (p.1 = k'))
  | [] => rfl
  | p :: r => by
    by_cases hp : p.1 = k
    · have hk : ¬ k = k' := fun e => h e.symm
      simp [List.find?_cons, hp, hk, fun e => h (hp ▸ e : k' = k), find?_setMap_ne k k' v h r]
    · by_cases hp' : p.1 = k'
      · rw [List.map_cons, List.find?_cons, List.find?_cons, if_neg hp]
        simp [hp']
      · simp [List.find?_cons, hp, hp', find?_setMap_ne k k' v h r]

theorem find?_append_ne (k k' : String) (v : α) (h : ¬ k' = k) :
    ∀ (r : List (String × α)),
      (r ++ [(k, v)]).find? (fun p => decide (p.1 = k')) =
        r.find? (fun p => decide (p.1 = k'))
  | [] => by
    have hk : ¬ k = k' := fun e => h e.symm
    simp [List.find?_cons, hk]
  | p :: r => by
    by_cases hp : p.1 = k'
    · simp [List.find?_cons, hp]
    · simp [List.find?_cons, hp, find?_append_ne k k' v h r]

theorem objGet_objSet_ne (r : List (String × α)) (k k' : String) (v : α)
    (h : ¬ k' = k) : objGet (objSet r k v) k' = objGet r k' := by
  unfold objGet objSet
  cases hany : r.any (fun p => decide (p.1 = k)) with
  | true => simp [hany, find?_setMap_ne k k' v h r]
  | false => simp [hany, find?_append_ne k k' v h r]

theorem applyPairs_cons (r : List (String × α)) (p : String × α)
    (ps : List (String × α)) :
    applyPairs r (p :: ps) = applyPairs (objSet r p.1 p.2) ps := rfl

theorem objGet_applyPairs_not_mem (k : String) :
    ∀ (ps : List (String × α)) (r : List (String × α)), k ∉ ps.map Prod.fst →
      objGet (applyPairs r ps) k = objGet r k
  | [], _, _ => rfl
  | p :: ps, r, h => by
    have hk : ¬ k = p.1 := fun e => h (by simp [e])
    have ht : k ∉ ps.map Prod.fst := fun hm => h (by simp; right; simpa using hm)
    rw [applyPairs_cons, objGet_applyPairs_not_mem k ps _ ht,
      objGet_objSet_ne r p.1 k p.2 hk]

theorem objGet_applyPairs_mem (k : String) (v : α) :
    ∀ (ps : List (String × α)) (r : List (String × α)),
      (ps.map Prod.fst).Nodup → (k, v) ∈ ps →
      objGet (applyPairs r ps) k = some v
  | [], _, _, hm => by simp at hm
  | p :: ps, r, hnd, hm => by
    rcases List.mem_cons.mp hm with he | ht
    · have hk : k ∉ ps.map Prod.fst := by
        have := (List.nodup_cons.mp hnd).1
        simpa [← he] using this
      rw [applyPairs_cons, objGet_applyPairs_not_mem k ps _ hk, ← he,
        objGet_objSet_self]
    · exact applyPairs_cons r p ps ▸
        objGet_applyPairs_mem k v ps _ (List.nodup_cons.mp hnd).2 ht

theorem objGet_mapValues (g : α → α) (k : String) :
    ∀ (r : List (String × α)),
      objGet (r.map (fun p => (p.1, g p.2))) k = (objGet r k).map g
  | [] => rfl
  | p :: r => by
    by_cases hp : p.1 = k
    · simp [objGet, List.find?_cons, hp]
    · simpa [objGet, List.find?_cons, hp] using objGet_mapValues g k r

theorem find?_mapValues (g : α → α) (k : String) :
    ∀ (r : List (String × α)),
      (r.map (fun p => (p.1, g p.2))).find? (fun p => decide (p.1 = k)) =
        (r.find? (fun p => decide (p.1 = k))).map (fun p => (p.1, g p.2))
  | [] => rfl
  | p :: r => by
    by_cases hp : p.1 = k
    · simp [List.find?_cons, hp]
    · simpa [List.find?_cons, hp] using find?_mapValues g k r

theorem objGet_map_keyPreserving (f : (String × α) → (String × α))
    (hf : ∀ p, (f p).1 = p.1) (k : String) :
    ∀ (r : List (String × α)),
      objGet (r.map f) k = ((r.find? (fun p => decide (p.1 = k))).map f).map Prod.snd
  | [] => rfl
  | p :: r => by
    by_cases hp : p.1 = k
    · simp [objGet, List.find?_cons, hp, hf p]
    · simpa [objGet, List.find?_cons, hp, hf p] using
        objGet_map_keyPreserving f hf k r

/-! ## Splitting lemmas -/

theorem splitCharsFirst_of_not_mem :
    ∀ (l : List Char), '_' ∉ l → splitCharsFirst l = none
  | [], _ => rfl
  | c :: cs, h => by
    have hc : ¬ c = '_' := fun e => h (e ▸ List.mem_cons_self c cs)
    simp [splitCharsFirst, hc,
      splitCharsFirst_of_not_mem cs (fun hm => h (List.mem_cons_of_mem c hm))]

theorem splitCharsFirst_append :
    ∀ (a : List Char) (b : List Char), '_' ∉ a →
      splitCharsFirst (a ++ '_' :: b) = some (a, b)
  | [], _, _ => by simp [splitCharsFirst]
  | c :: a, b, h => by
    have hc : ¬ c = '_' := fun e => h (e ▸ List.mem_cons_self c a)
    simp [splitCharsFirst, hc,
      splitCharsFirst_append a b (fun hm => h (List.mem_cons_of_mem c hm))]

theorem splitFirstUnderscore_no_underscore (k : String) (hk : '_' ∉ k.data) :
    splitFirstUnderscore k = (k, none) := by
  unfold splitFirstUnderscore
  rw [splitCharsFirst_of_not_mem k.data hk]

theorem getColumnValuePairs_keys :
    ∀ (inst : Row), (getColumnValuePairs inst).map Prod.fst = inst.map Prod.fst
  | [] => rfl
  | p :: l => by simp [getColumnValuePairs, getColumnValuePairs_keys l]

theorem splitFirstUnderscore_append (a b : List Char) (ha : '_' ∉ a) :
    splitFirstUnderscore (String.mk (a ++ '_' :: b)) =
      (String.mk a, some (String.mk b)) := by
  unfold splitFirstUnderscore
  rw [show (String.mk (a ++ '_' :: b)).data = a ++ '_' :: b from rfl,
    splitCharsFirst_append a b ha]

/-- The per-entry deserialization transform never changes the property
name. -/
theorem deserializeEntry_fst (entity : Entity) (p : String × Value) :
    (deserializeEntry entity p).1 = p.1 := by
  unfold deserializeEntry
  cases entity.fieldByName p.1 with
  | none => rfl
  | some fl =>
    by_cases hb : fl.baseGqlType = "Boolean" <;>
      by_cases hl : fl.kind = FieldKind.LIST <;> simp [hb, hl]

/-- The per-entry deserialization transform is the identity on properties
that match no field and on matched fields that are neither boolean-typed nor
list-kind. -/
theorem deserializeEntry_passthrough (entity : Entity) (p : String × Value)
    (h : ∀ fl, entity.fieldByName p.1 = some fl →
      ¬ fl.baseGqlType = "Boolean" ∧ ¬ fl.kind = FieldKind.LIST) :
    deserializeEntry entity p = p := by
  unfold deserializeEntry
  cases hf : entity.fieldByName p.1 with
  | none => rfl
  | some fl =>
    obtain ⟨hb, hl⟩ := h fl hf
    simp [hb, hl]

/-! ## Claim theorems -/

/-- C1: refuted on the code (code bug). The claim states that every filter
value is passed in the positional bound-parameter list and that the clause
text is value-independent. The code instead renders the value into the
clause text (`getWhereValue`) and calls `pool.query(statement)` with no
parameter list (line 219): the two `where` mappings `{name: "bob"}` and
`{name: "alice"}` — same key, different values — compile to different
statement texts, each with an empty bound-parameter list. -/
theorem where_values_interpolated_not_bound :
    getEntitiesStatement "Person"
        (some { whereArg := some [("name", Value.vStr "bob")] }) =
      .ok ("SELECT * FROM \"Person\" WHERE \"name\" = bob", []) ∧
    getEntitiesStatement "Person"
        (some { whereArg := some [("name", Value.vStr "alice")] }) =
      .ok ("SELECT * FROM \"Person\" WHERE \"name\" = alice", []) ∧
    ¬ (("SELECT * FROM \"Person\" WHERE \"name\" = bob" : String) =
        "SELECT * FROM \"Person\" WHERE \"name\" = alice") :=
  ⟨rfl, rfl, by decide⟩

/-- C3: every operation other than load and teardown, invoked while the
store has no schema, fails with the Uninitialized error ("EntityStore has not
been initialized with a schema yet"), while teardown with no schema issues no
statements and load with no schema set and none supplied issues none and
leaves the schema unset. -/
theorem uninitialized_guard (pool : String → List Row) (table : Table)
    (entityId id dfn : String) (inst : Row) (filter : Option EntityFilter) :
    getEntity none table entityId id = .error uninitializedMsg ∧
    insertEntity none table entityId id inst = .error uninitializedMsg ∧
    updateEntity none table entityId id inst = .error uninitializedMsg ∧
    upsertEntity none table entityId id inst = .error uninitializedMsg ∧
    deleteEntity none table entityId id = .error uninitializedMsg ∧
    getEntities pool none entityId filter = .error uninitializedMsg ∧
    getEntityDerivedField pool none entityId id dfn = .error uninitializedMsg ∧
    teardown none = [] ∧
    load none none = (none, []) :=
  ⟨rfl, rfl, rfl, rfl, rfl, rfl, rfl, rfl, rfl⟩

/-- C5 counterexample: the claim says a key that is exactly a field name
containing an underscore (here `my_field`) compiles to an equality predicate
on that field; instead both filter compilers split at the first underscore
unconditionally and fail with an unknown-operator error for the suffix
`field`. -/
theorem wherekey_underscore_field_counterexample :
    getEntitiesStatement "e"
        (some { whereArg := some [("my_field", Value.vStr "v")] }) =
      .error "SQL operators not found for filter type: field" ∧
    buildWhereObject [("my_field", Value.vStr "v")] =
      .error "Invalid query: Unknown where condition: my_field" :=
  ⟨rfl, rfl⟩

/-- C5 (amended): each `where` key is split at the first underscore
unconditionally — the suffix is everything after the first underscore whether
or not it matches a known operator — and only a key containing no underscore
falls back to the empty suffix, compiling to an equality predicate on the
whole key. -/
theorem wherekey_split_at_first_underscore (a b : List Char) (v : Value)
    (k : String) (ha : '_' ∉ a) (hk : '_' ∉ k.data) :
    splitFirstUnderscore (String.mk (a ++ '_' :: b)) =
      (String.mk a, some (String.mk b)) ∧
    splitFirstUnderscore k = (k, none) ∧
    whereFragment (k, v) =
      .ok ("\"" ++ k ++ "\" " ++ getWhereValue v { operator := "=" }) ∧
    getWhereValue v { operator := "=" } = "= " ++ renderScalar v := by
  refine ⟨splitFirstUnderscore_append a b ha,
    splitFirstUnderscore_no_underscore k hk, ?_, rfl⟩
  simp [whereFragment, splitFirstUnderscore_no_underscore k hk,
    sqlSymbolsForFilterType]

/-- C5 witness: `my_field` splits into field `my` and suffix `field`, while
the underscore-free key `name` keeps the empty suffix and compiles to an
equality predicate. -/
theorem wherekey_split_witness :
    splitFirstUnderscore "my_field" = ("my", some "field") ∧
    splitFirstUnderscore "name" = ("name", none) ∧
    whereFragment ("name", Value.vStr "bob") =
      .ok ("\"" ++ "name" ++ "\" " ++
        getWhereValue (Value.vStr "bob") { operator := "=" }) ∧
    getWhereValue (Value.vStr "bob") { operator := "=" } =
      "= " ++ renderScalar (Value.vStr "bob") :=
  wherekey_split_at_first_underscore "my".data "field".data (Value.vStr "bob")
    "name" (by decide) (by decide)

/-- C6 counterexample: for the key `age_zzz` the list compiler's error text
is "SQL operators not found for filter type: zzz", which identifies only the
suffix — the offending key `age_zzz` appears nowhere in it. -/
theorem unknown_operator_message_counterexample :
    getEntitiesStatement "e"
        (some { whereArg := some [("age_zzz", Value.vInt 10)] }) =
      .error "SQL operators not found for filter type: zzz" ∧
    ¬ ("age_zzz".data <:+:
        "SQL operators not found for filter type: zzz".data) :=
  ⟨rfl, by decide⟩

/-- The `where` compilation of `getEntities` fails whenever any entry's
parsed suffix has no registered SQL symbols: the `mapM` over `whereFragment`
is an error naming an unregistered suffix parsed from an entry of the
mapping (the first offending one). -/
theorem mapM_whereFragment_error :
    ∀ (w : Row),
      (∃ p ∈ w,
        sqlSymbolsForFilterType ((splitFirstUnderscore p.1).2.getD "") = none) →
      ∃ filterType,
        (∃ p ∈ w, (splitFirstUnderscore p.1).2.getD "" = filterType) ∧
        sqlSymbolsForFilterType filterType = none ∧
        w.mapM whereFragment =
          .error ("SQL operators not found for filter type: " ++ filterType)
  | [], h => by simp at h
  | p :: rest, h => by
    rcases hsp : splitFirstUnderscore p.1 with ⟨fn, ro⟩
    cases hsym : sqlSymbolsForFilterType (ro.getD "") with
    | none =>
      refine ⟨ro.getD "", ⟨p, List.mem_cons_self p rest, by rw [hsp]⟩, hsym, ?_⟩
      have hwf : whereFragment p =
          .error ("SQL operators not found for filter type: " ++ ro.getD "") := by
        simp [whereFragment, hsp, hsym]
      rw [List.mapM_cons, hwf]
      rfl
    | some sym =>
      obtain ⟨q, hq, hqnone⟩ := h
      rcases List.mem_cons.mp hq with he | ht
      · exfalso
        rw [he, hsp] at hqnone
        simp [hsym] at hqnone
      · obtain ⟨ft, ⟨r, hr, hrft⟩, hft, herr⟩ :=
          mapM_whereFragment_error rest ⟨q, ht, hqnone⟩
        refine ⟨ft, ⟨r, List.mem_cons_of_mem p hr, hrft⟩, hft, ?_⟩
        have hwf : whereFragment p =
            .ok ("\"" ++ fn ++ "\" " ++ getWhereValue p.2 sym) := by
          simp [whereFragment, hsp, hsym]
        rw [List.mapM_cons, hwf, herr]
        rfl

/-- `buildWhereObject`'s fold fails, from any accumulator, whenever any
entry's parsed condition has no registered store condition, with the error
naming the field name and condition of an offending entry. -/
theorem buildWhereObject_foldlM_error :
    ∀ (w : Row) (acc : List (String × (String × Value))),
      (∃ p ∈ w,
        graphqlFilterToStoreCondition ((splitFirstUnderscore p.1).2.getD "") = none) →
      ∃ fn cond,
        (∃ p ∈ w, (splitFirstUnderscore p.1).1 = fn ∧
          (splitFirstUnderscore p.1).2.getD "" = cond) ∧
        graphqlFilterToStoreCondition cond = none ∧
        w.foldlM (fun acc entry =>
          let (fieldName, conditionOpt) := splitFirstUnderscore entry.1
          let condition := conditionOpt.getD ""
          match graphqlFilterToStoreCondition condition with
          | none =>
            Except.error
              ("Invalid query: Unknown where condition: " ++ fieldName ++ "_" ++ condition)
          | some storeCondition =>
            Except.ok (objSet acc fieldName (storeCondition, entry.2))) acc =
          Except.error ("Invalid query: Unknown where condition: " ++ fn ++ "_" ++ cond)
  | [], _, h => by simp at h
  | p :: rest, acc, h => by
    rcases hsp : splitFirstUnderscore p.1 with ⟨fn, ro⟩
    cases hcond : graphqlFilterToStoreCondition (ro.getD "") with
    | none =>
      refine ⟨fn, ro.getD "",
        ⟨p, List.mem_cons_self p rest, by rw [hsp], by rw [hsp]⟩, hcond, ?_⟩
      rw [List.foldlM_cons]
      simp only [hsp, hcond]
      rfl
    | some sc =>
      obtain ⟨q, hq, hqnone⟩ := h
      rcases List.mem_cons.mp hq with he | ht
      · exfalso
        rw [he, hsp] at hqnone
        simp [hcond] at hqnone
      · obtain ⟨fn', cond', ⟨r, hr, hrfn, hrcond⟩, hcond', herr⟩ :=
          buildWhereObject_foldlM_error rest (objSet acc fn (sc, p.2)) ⟨q, ht, hqnone⟩
        refine ⟨fn', cond',
          ⟨r, List.mem_cons_of_mem p hr, hrfn, hrcond⟩, hcond', ?_⟩
        rw [List.foldlM_cons]
        simp only [hsp, hcond]
        exact herr

/-- A failing `where` compilation makes the whole statement construction
fail with the same error: the `mapM` result is the first fragment bound in
the `do` block of `getEntitiesStatement`. -/
theorem getEntitiesStatement_error (entityId : String) (f : EntityFilter)
    (w : Row) (msg : String) (hw : f.whereArg = some w)
    (herr : w.mapM whereFragment = Except.error msg) :
    getEntitiesStatement entityId (some f) = .error msg := by
  unfold getEntitiesStatement
  simp only [Option.bind, hw, herr]
  rfl

/-- A failing statement construction makes `getEntities` fail with the same
error before the pool is consulted. -/
theorem getEntities_of_statement_error (pool : String → List Row) (s : Schema)
    (entityId : String) (filter : Option EntityFilter) (msg : String)
    (h : getEntitiesStatement entityId filter = .error msg) :
    getEntities pool (some s) entityId filter = .error msg := by
  show (do
    let q ← getEntitiesStatement entityId filter
    let rows := pool q.1
    rows.mapM (fun r => deserialize (some s) entityId r)) = Except.error msg
  rw [h]
  rfl

/-- C6 (amended): for every `where` mapping, whenever any entry's parsed
operator suffix has no registered SQL symbols, list compilation fails before
any statement is issued — no rows are returned — with an error identifying an
offending entry's operator suffix; and whenever any entry's parsed condition
is unregistered in the GraphQL-side table, `buildWhereObject` fails with an
error naming that entry's reconstructed key. -/
theorem getEntities_unknown_suffix (pool : String → List Row) (s : Schema)
    (entityId : String) (f : EntityFilter) (w : Row)
    (hw : f.whereArg = some w)
    (hstore : ∃ p ∈ w,
      sqlSymbolsForFilterType ((splitFirstUnderscore p.1).2.getD "") = none)
    (hgql : ∃ p ∈ w,
      graphqlFilterToStoreCondition ((splitFirstUnderscore p.1).2.getD "") = none) :
    (∃ filterType,
      (∃ p ∈ w, (splitFirstUnderscore p.1).2.getD "" = filterType) ∧
      sqlSymbolsForFilterType filterType = none ∧
      getEntities pool (some s) entityId (some f) =
        .error ("SQL operators not found for filter type: " ++ filterType)) ∧
    (∃ fn cond,
      (∃ p ∈ w, (splitFirstUnderscore p.1).1 = fn ∧
        (splitFirstUnderscore p.1).2.getD "" = cond) ∧
      graphqlFilterToStoreCondition cond = none ∧
      buildWhereObject w =
        .error ("Invalid query: Unknown where condition: " ++ fn ++ "_" ++ cond)) := by
  constructor
  · obtain ⟨ft, hmem, hft, herr⟩ := mapM_whereFragment_error w hstore
    exact ⟨ft, hmem, hft, getEntities_of_statement_error pool s entityId (some f) _
      (getEntitiesStatement_error entityId f w _ hw herr)⟩
  · obtain ⟨fn, cond, hmem, hcond, herr⟩ :=
      buildWhereObject_foldlM_error w [] hgql
    exact ⟨fn, cond, hmem, hcond, herr⟩

/-- C6 witness: the single-entry mapping `{age_zzz: 10}` offends both
compilers, and the resulting errors name the suffix `zzz` and the key
`age_zzz` respectively. -/
theorem getEntities_unknown_suffix_witness :
    (∃ filterType,
      (∃ p ∈ ([("age_zzz", Value.vInt 10)] : Row),
        (splitFirstUnderscore p.1).2.getD "" = filterType) ∧
      sqlSymbolsForFilterType filterType = none ∧
      getEntities emptyPool (some schemaE) "E"
          (some (singleWhereFilter "age_zzz" (Value.vInt 10))) =
        .error ("SQL operators not found for filter type: " ++ filterType)) ∧
    (∃ fn cond,
      (∃ p ∈ ([("age_zzz", Value.vInt 10)] : Row),
        (splitFirstUnderscore p.1).1 = fn ∧
        (splitFirstUnderscore p.1).2.getD "" = cond) ∧
      graphqlFilterToStoreCondition cond = none ∧
      buildWhereObject [("age_zzz", Value.vInt 10)] =
        .error ("Invalid query: Unknown where condition: " ++ fn ++ "_" ++ cond)) :=
  getEntities_unknown_suffix emptyPool schemaE "E"
    (singleWhereFilter "age_zzz" (Value.vInt 10)) [("age_zzz", Value.vInt 10)] rfl
    ⟨("age_zzz", Value.vInt 10), List.mem_singleton.mpr rfl, rfl⟩
    ⟨("age_zzz", Value.vInt 10), List.mem_singleton.mpr rfl, rfl⟩

/-- C7: refuted on the code (code bug). The claim states decode accepts
either storage representation of a boolean; `deserialize` instead computes
`value === 1`, so storage `1`/`0` decode to true/false as claimed but a
native boolean `true` decodes to `false`, not `true`. -/
theorem deserialize_boolean_decode :
    deserialize (some schemaE) "E" [("flag", Value.vBool true)] =
      .ok [("flag", Value.vBool false)] ∧
    deserialize (some schemaE) "E" [("flag", Value.vBool false)] =
      .ok [("flag", Value.vBool false)] ∧
    deserialize (some schemaE) "E" [("flag", Value.vInt 1)] =
      .ok [("flag", Value.vBool true)] ∧
    deserialize (some schemaE) "E" [("flag", Value.vInt 0)] =
      .ok [("flag", Value.vBool false)] :=
  ⟨rfl, rfl, rfl, rfl⟩

/-- C8: refuted on the code (code bug). When `skip` is given without
`first`, this Postgres store synthesizes `LIMIT -1` (the comment at line 213
says it is for SQLite; Postgres rejects a negative LIMIT), so the synthesized
limit is not valid for the backend. The second conjunct records the
fragment order filter → ordering → direction → limit → offset on the spec's
pagination example. -/
theorem skip_without_first_emits_negative_limit :
    getEntitiesStatement "e" (some { skip := some 1 }) =
      .ok ("SELECT * FROM \"e\" LIMIT -1 OFFSET 1", []) ∧
    getEntitiesStatement "e"
        (some { first := some 2, skip := some 1, orderBy := some "id", orderDirection := some "asc" }) =
      .ok ("SELECT * FROM \"e\" ORDER BY \"id\" asc LIMIT 2 OFFSET 1", []) :=
  ⟨rfl, rfl⟩

/-- C9: with a schema set and the entity resolved, `getEntityDerivedField`
fails with the field-not-found error when no derived-kind field of that name
exists; fails with the entity-not-found error when `derivedFromEntityName`
names no schema entity; and otherwise equals a `getEntities` call on the
target entity whose `where` is the single equality filter
`{ derivedFromFieldName: instanceId }`. -/
theorem getEntityDerivedField_spec (pool : String → List Row) (s : Schema)
    (entityId instanceId dfn : String) (entity : Entity)
    (hent : s.entities.find? (fun e => decide (e.id = entityId)) = some entity) :
    (entity.fields.find? (fun f =>
        decide (f.kind = FieldKind.DERIVED) && decide (f.name = dfn)) = none →
      getEntityDerivedField pool (some s) entityId instanceId dfn =
        .error ("Derived field not found: " ++ entity.name ++ "." ++ dfn)) ∧
    (∀ df, entity.fields.find? (fun f =>
        decide (f.kind = FieldKind.DERIVED) && decide (f.name = dfn)) = some df →
      (s.entities.find? (fun e =>
          decide (e.name = df.derivedFromEntityName)) = none →
        getEntityDerivedField pool (some s) entityId instanceId dfn =
          .error ("Entity not found in schema for name: " ++
            df.derivedFromEntityName)) ∧
      (∀ target, s.entities.find? (fun e =>
          decide (e.name = df.derivedFromEntityName)) = some target →
        getEntityDerivedField pool (some s) entityId instanceId dfn =
          getEntities pool (some s) target.id
            (some (singleWhereFilter df.derivedFromFieldName
              (Value.vStr instanceId))))) := by
  refine ⟨fun hdf => ?_, fun df hdf => ⟨fun htgt => ?_, fun target htgt => ?_⟩⟩
  · simp [getEntityDerivedField, errorWrapper, hent, hdf]
  · simp [getEntityDerivedField, errorWrapper, hent, hdf, htgt]
  · simp [getEntityDerivedField, errorWrapper, hent, hdf, htgt, singleWhereFilter]

/-- C9 witness: on the Owner/Pet schema, `getDerivedField(Owner, "o1",
"pets")` is exactly a list on `Pet` filtered by `{ownerId: "o1"}`. -/
theorem getEntityDerivedField_witness :
    getEntityDerivedField emptyPool (some ownerPetSchema) "OwnerT" "o1" "pets" =
      getEntities emptyPool (some ownerPetSchema) "PetT"
        (some (singleWhereFilter "ownerId" (Value.vStr "o1"))) :=
  ((getEntityDerivedField_spec emptyPool ownerPetSchema "OwnerT" "o1" "pets"
      ownerEntity rfl).2 ownerPetsField rfl).2 petEntity rfl

/-- C10: `deserialize` returns the entrywise image of the input row (the
input itself is untouched): properties matching no field of the entity pass
through unchanged, and matched fields that are neither boolean-typed nor
list-kind pass through unchanged, so only boolean-typed and list-kind fields
are ever transformed. -/
theorem deserialize_frame (s : Schema) (entityId : String) (inst : Row)
    (entity : Entity)
    (hent : s.entities.find? (fun e => decide (e.id = entityId)) = some entity) :
    deserialize (some s) entityId inst =
      .ok (inst.map (deserializeEntry entity)) ∧
    (∀ p ∈ inst, entity.fieldByName p.1 = none → deserializeEntry entity p = p) ∧
    (∀ p ∈ inst, ∀ fl, entity.fieldByName p.1 = some fl →
      ¬ fl.baseGqlType = "Boolean" → ¬ fl.kind = FieldKind.LIST →
      deserializeEntry entity p = p) := by
  refine ⟨by simp [deserialize, hent], fun p _ hnone => ?_, fun p _ fl hfl hb hl => ?_⟩
  · unfold deserializeEntry
    rw [hnone]
  · exact deserializeEntry_passthrough entity p
      (fun fl' hfl' => by rw [hfl] at hfl'; cases hfl'; exact ⟨hb, hl⟩)

/-- C10 witness: on `schemaE`, a row with a string-field property and an
unmatched property deserializes to its entrywise image, with both kinds of
property untouched. -/
theorem deserialize_frame_witness :
    deserialize (some schemaE) "E" [("name", Value.vStr "x"), ("other", Value.vNull)] =
      .ok ([("name", Value.vStr "x"), ("other", Value.vNull)].map
        (deserializeEntry entityE)) ∧
    (∀ p ∈ ([("name", Value.vStr "x"), ("other", Value.vNull)] : Row),
      entityE.fieldByName p.1 = none → deserializeEntry entityE p = p) ∧
    (∀ p ∈ ([("name", Value.vStr "x"), ("other", Value.vNull)] : Row),
      ∀ fl, entityE.fieldByName p.1 = some fl →
      ¬ fl.baseGqlType = "Boolean" → ¬ fl.kind = FieldKind.LIST →
      deserializeEntry entityE p = p) :=
  deserialize_frame schemaE "E" [("name", Value.vStr "x"), ("other", Value.vNull)]
    entityE rfl

/-- C2: `insertEntity` first forces `instance.id = id` and only then builds
the inserted column/value pairs, so the row stored by the INSERT has the id
argument as its primary key (never the id supplied inside the instance), and
the decoded row the call returns carries the same id. -/
theorem insertEntity_forces_id (s : Schema) (table : Table)
    (entityId id : String) (inst : Row) (entity : Entity)
    (hent : s.entities.find? (fun e => decide (e.id = entityId)) = some entity)
    (hdup : ∀ r ∈ table, ¬ objGet r "id" = some (Value.vStr id))
    (hidf : ∀ fl, entity.fieldByName "id" = some fl →
      ¬ fl.baseGqlType = "Boolean" ∧ ¬ fl.kind = FieldKind.LIST) :
    ∃ ret,
      insertEntity (some s) table entityId id inst =
        .ok (ret, table ++ [getColumnValuePairs (objSet inst "id" (Value.vStr id))]) ∧
      objGet (getColumnValuePairs (objSet inst "id" (Value.vStr id))) "id" =
        some (Value.vStr id) ∧
      objGet ret "id" = some (Value.vStr id) := by
  have hany : table.any
      (fun r => decide (objGet r "id" = some (Value.vStr id))) = false := by
    rw [Bool.eq_false_iff]
    intro htrue
    obtain ⟨r, hr, hp⟩ := List.any_eq_true.mp htrue
    exact hdup r hr (of_decide_eq_true hp)
  have hpairs : objGet (getColumnValuePairs (objSet inst "id" (Value.vStr id)))
      "id" = some (Value.vStr id) := by
    unfold getColumnValuePairs
    rw [objGet_mapValues encodeValue "id" (objSet inst "id" (Value.vStr id)),
      objGet_objSet_self]
    rfl
  refine ⟨(getColumnValuePairs (objSet inst "id" (Value.vStr id))).map
    (deserializeEntry entity), ?_, hpairs, ?_⟩
  · simp [insertEntity, errorWrapper, hany, deserialize, hent, Except.map]
  · rw [objGet_map_keyPreserving (deserializeEntry entity)
      (deserializeEntry_fst entity) "id"]
    unfold getColumnValuePairs
    rw [find?_mapValues encodeValue "id", find?_objSet_self]
    have hde : deserializeEntry entity ("id", Value.vStr id) = ("id", Value.vStr id) :=
      deserializeEntry_passthrough entity ("id", Value.vStr id) hidf
    simp [encodeValue, hde]

/-- C2 witness: inserting with id `"x"` and an instance claiming id `"y"`
stores and returns a row whose id is `"x"`. -/
theorem insertEntity_forces_id_witness :
    ∃ ret,
      insertEntity (some schemaE) [] "E" "x"
          [("id", Value.vStr "y"), ("name", Value.vStr "n")] =
        .ok (ret, [] ++ [getColumnValuePairs
          (objSet [("id", Value.vStr "y"), ("name", Value.vStr "n")] "id"
            (Value.vStr "x"))]) ∧
      objGet (getColumnValuePairs
          (objSet [("id", Value.vStr "y"), ("name", Value.vStr "n")] "id"
            (Value.vStr "x"))) "id" = some (Value.vStr "x") ∧
      objGet ret "id" = some (Value.vStr "x") :=
  insertEntity_forces_id schemaE [] "E" "x"
    [("id", Value.vStr "y"), ("name", Value.vStr "n")] entityE rfl
    (fun r hr => absurd hr (List.not_mem_nil r))
    (fun fl hfl => by
      rw [show entityE.fieldByName "id" = some idField from rfl] at hfl
      injection hfl with h
      exact h ▸ ⟨by decide, by decide⟩)

/-- C4 counterexample: the claim says a no-match update fails with NotFound
semantics signaled by an empty result the caller can check for; on an empty
table the code instead indexes `rows[0]` (undefined) and deserializing it
throws a TypeError — the caller gets an exception, not a checkable empty
result. -/
theorem updateEntity_missing_row_counterexample :
    updateEntity (some schemaE) [] "E" "x" [("name", Value.vStr "n")] =
      .error typeErrorUndefined ∧
    ¬ ∃ ret, updateEntity (some schemaE) [] "E" "x" [("name", Value.vStr "n")] =
      .ok ret := by
  refine ⟨rfl, ?_⟩
  rintro ⟨ret, h⟩
  rw [show updateEntity (some schemaE) [] "E" "x" [("name", Value.vStr "n")] =
    .error typeErrorUndefined from rfl] at h
  cases h

/-- C4 (amended): on a row matching the id, update applies exactly the
fields present in the instance other than `id` (each set to its encoded
instance value, the id and every absent column untouched) and returns the
updated row decoded; when no row matches, the call fails with the TypeError
raised while decoding the absent `rows[0]`, not with a checkable empty
result. -/
theorem updateEntity_sets_fields (s : Schema) (table : Table)
    (entityId id : String) (inst : Row) (entity : Entity) (row : Row)
    (hent : s.entities.find? (fun e => decide (e.id = entityId)) = some entity)
    (hnd : (inst.map Prod.fst).Nodup)
    (hhead : (table.filter
      (fun r => decide (objGet r "id" = some (Value.vStr id)))).head? = some row) :
    ∃ ret,
      updateEntity (some s) table entityId id inst =
        .ok (ret, table.map (fun r =>
          if objGet r "id" = some (Value.vStr id)
          then applyPairs r (updatePairsOf inst) else r)) ∧
      deserialize (some s) entityId (applyPairs row (updatePairsOf inst)) =
        .ok ret ∧
      objGet (applyPairs row (updatePairsOf inst)) "id" = objGet row "id" ∧
      (∀ n v, (n, v) ∈ inst → ¬ n = "id" →
        objGet (applyPairs row (updatePairsOf inst)) n = some (encodeValue v)) ∧
      (∀ n, n ∉ inst.map Prod.fst →
        objGet (applyPairs row (updatePairsOf inst)) n = objGet row n) := by
  have hidnot : "id" ∉ (updatePairsOf inst).map Prod.fst := by
    intro h
    obtain ⟨p, hp, hfst⟩ := List.mem_map.mp h
    exact of_decide_eq_true (List.mem_filter.mp hp).2 hfst
  have hkeysnd : ((updatePairsOf inst).map Prod.fst).Nodup := by
    have hsub : ((updatePairsOf inst).map Prod.fst).Sublist
        ((getColumnValuePairs inst).map Prod.fst) :=
      List.Sublist.map Prod.fst (List.filter_sublist (getColumnValuePairs inst))
    rw [getColumnValuePairs_keys inst] at hsub
    exact List.Nodup.sublist hsub hnd
  have hret : ((table.filter
      (fun r => decide (objGet r "id" = some (Value.vStr id)))).map
        (fun r => applyPairs r (updatePairsOf inst))).head? =
      some (applyPairs row (updatePairsOf inst)) := by
    rw [List.head?_map, hhead]
    rfl
  refine ⟨(applyPairs row (updatePairsOf inst)).map (deserializeEntry entity),
    ?_, by simp [deserialize, hent], objGet_applyPairs_not_mem "id" _ row hidnot,
    fun n v hm hn => ?_, fun n hn => ?_⟩
  · simp [updateEntity, errorWrapper, hret, deserialize, hent, Except.map]
  · have hmem : (n, encodeValue v) ∈ updatePairsOf inst := by
      refine List.mem_filter.mpr ⟨?_, by simp [hn]⟩
      exact List.mem_map.mpr ⟨(n, v), hm, rfl⟩
    exact objGet_applyPairs_mem n (encodeValue v) (updatePairsOf inst) row
      hkeysnd hmem
  · have hn' : n ∉ (updatePairsOf inst).map Prod.fst := by
      intro h
      obtain ⟨p, hp, hfst⟩ := List.mem_map.mp h
      exact hn (getColumnValuePairs_keys inst ▸
        List.mem_map.mpr ⟨p, (List.mem_filter.mp hp).1, hfst⟩)
    exact objGet_applyPairs_not_mem n _ row hn'

/-- C4 witness: updating id `"x"` on a one-row table sets exactly `name` and
leaves the id in place. -/
theorem updateEntity_sets_fields_witness :
    ∃ ret,
      updateEntity (some schemaE)
          [[("id", Value.vStr "x"), ("name", Value.vStr "a")]] "E" "x"
          [("name", Value.vStr "b")] =
        .ok (ret, [[("id", Value.vStr "x"), ("name", Value.vStr "a")]].map
          (fun r =>
            if objGet r "id" = some (Value.vStr "x")
            then applyPairs r (updatePairsOf [("name", Value.vStr "b")])
            else r)) ∧
      deserialize (some schemaE) "E"
          (applyPairs [("id", Value.vStr "x"), ("name", Value.vStr "a")]
            (updatePairsOf [("name", Value.vStr "b")])) = .ok ret ∧
      objGet (applyPairs [("id", Value.vStr "x"), ("name", Value.vStr "a")]
          (updatePairsOf [("name", Value.vStr "b")])) "id" =
        objGet [("id", Value.vStr "x"), ("name", Value.vStr "a")] "id" ∧
      (∀ n v, (n, v) ∈ ([("name", Value.vStr "b")] : Row) → ¬ n = "id" →
        objGet (applyPairs [("id", Value.vStr "x"), ("name", Value.vStr "a")]
          (updatePairsOf [("name", Value.vStr "b")])) n =
          some (encodeValue v)) ∧
      (∀ n, n ∉ ([("name", Value.vStr "b")] : Row).map Prod.fst →
        objGet (applyPairs [("id", Value.vStr "x"), ("name", Value.vStr "a")]
          (updatePairsOf [("name", Value.vStr "b")])) n =
          objGet [("id", Value.vStr "x"), ("name", Value.vStr "a")] n) :=
  updateEntity_sets_fields schemaE
    [[("id", Value.vStr "x"), ("name", Value.vStr "a")]] "E" "x"
    [("name", Value.vStr "b")] entityE
    [("id", Value.vStr "x"), ("name", Value.vStr "a")] rfl (by decide) rfl

end Ponder
